import Mathlib

/-!
# Verification of the promo-monitor aggregation pipeline

Shallow embedding of `src/monitor_promos_milhas.py` (keyword monitor for
mileage-transfer promotions).  The I/O shells (HTTP fetching, SMTP,
Telegram, the CSV file on disk) are modelled as explicit data: feeds and
pages arrive as pure lists of already-fetched records, and the CSV ledger
is a list of rows threaded through `salvar_log_csv`.

Modelling conventions:
* Python `datetime` values are timestamps in microseconds (the resolution
  of `datetime`), as `Nat` counted from `datetime.min` at the fixed
  `TZ_FORTALEZA` offset; comparisons and the window arithmetic are done
  in `Int` so no subtraction underflows.
* The module-level global `AGORA = datetime.now(TZ_FORTALEZA)` (read once
  at import) is made an explicit `agora : Nat` argument everywhere the
  Python code reads the global.
* Python `str.lower()` / `str.upper()` are modelled on ASCII (Lean's
  `Char.toLower`); all concrete inputs used in theorems below keep case
  changes inside ASCII, where the two agree.
* `str.strip()` and the regex `\s+` are modelled over ASCII whitespace.
-/

/-- One microsecond-count per day: `timedelta(days=1)` at `datetime`
resolution. -/
def microsPorDia : Int := 86400000000

/-- ASCII whitespace, the characters Python's `str.strip()` and `\s`
recognise in the ASCII range: space, tab, newline, carriage return,
vertical tab, form feed. -/
def espacoPy (c : Char) : Bool :=
  c == ' ' || c == '\t' || c == '\n' || c == '\r' || c == '\x0b' || c == '\x0c'

/-- `str.strip()` on a character list: drop leading and trailing
whitespace. -/
def stripL (l : List Char) : List Char :=
  ((l.dropWhile espacoPy).reverse.dropWhile espacoPy).reverse

/-- `str.strip()` on strings. -/
def stripStr (s : String) : String := String.mk (stripL s.toList)

/-- One left-to-right pass replacing every run of whitespace by a single
space: the effect of `re.sub(r"\s+", " ", t)`.  The Boolean flag records
whether the previous character was whitespace (so the run emits one
space only). -/
def colapsaEspacos : Bool → List Char → List Char
  | _, [] => []
  | prevSpace, c :: rest =>
    if espacoPy c then
      if prevSpace then colapsaEspacos true rest
      else ' ' :: colapsaEspacos true rest
    else c :: colapsaEspacos false rest

/-- `str.lower()`, modelled on ASCII via `Char.toLower`. -/
def lowerStr (s : String) : String := String.mk (s.toList.map Char.toLower)

/-- `normalizar_texto(t)`:
`re.sub(r"\s+", " ", (t or "").strip()).lower()` — strip ends, collapse
whitespace runs to single spaces, lowercase. -/
def normalizar_texto (t : String) : String :=
  String.mk ((colapsaEspacos false (stripL t.toList)).map Char.toLower)

/-- Contiguous-sublist test on character lists (sliding
`isPrefixOf`). -/
def infixL (pat : List Char) : List Char → Bool
  | [] => pat.isEmpty
  | c :: rest => pat.isPrefixOf (c :: rest) || infixL pat rest

/-- Python's `sub in s` substring test, on the underlying character
lists. -/
def isSubstrL (pat text : String) : Bool :=
  infixL pat.toList text.toList

/-- `contem_keywords(texto, keywords)`:
`nt = normalizar_texto(texto); any(k.lower() in nt for k in keywords)`. -/
def contem_keywords (texto : String) (keywords : List String) : Bool :=
  let nt := normalizar_texto texto
  keywords.any (fun k => isSubstrL (lowerStr k) nt)

/-- The `KEYWORDS` list of the source module, verbatim. -/
def KEYWORDS : List String :=
  ["transferência", "transferencia", "transferir", "bônus", "bonus",
   "bonificação", "bonificacao",
   "campanha", "promoção", "promocao", "promo",
   "smiles", "latam pass", "esfera", "livelo", "tudoazul", "ame", "inter",
   "santander", "bradesco", "itau", "bb", "caixa", "shell box",
   "bônus na transferência", "bonus na transferencia",
   "bonus de transferência", "bonus de transferencia"]

/-- `RECENCIA_DIAS = 3`. -/
def RECENCIA_DIAS : Int := 3

/-- `dentro_da_janela(data_pub, dias)`.  The Python function reads the
module global `AGORA` (captured at import time); here that global is the
explicit first argument `agora`.  A non-`datetime` argument
(`data_pub = None`) fails the `isinstance` guard and returns `False`;
otherwise it returns `data_pub >= AGORA - timedelta(days=dias)`. -/
def dentro_da_janela (agora : Nat) (data_pub : Option Nat) (dias : Int) : Bool :=
  match data_pub with
  | none => false
  | some d => decide ((agora : Int) - dias * microsPorDia ≤ (d : Int))

/-- A feedparser entry, with the fields `tentar_parse_datetime` and
`coletar_via_rss` read.  Each date field is `Option (Option Nat)`: the
outer layer is presence/truthiness of the field, the inner layer is
success of the library conversion (`time.mktime`/`fromtimestamp` for the
`*_parsed` structs, `parsedate_to_datetime` for the strings), whose
successful result is the timestamp. -/
structure Entry where
  title : Option String
  summary : Option String
  description : Option String
  link : Option String
  published_parsed : Option (Option Nat)
  updated_parsed : Option (Option Nat)
  created_parsed : Option (Option Nat)
  published : Option (Option Nat)
  updated : Option (Option Nat)
  created : Option (Option Nat)
deriving DecidableEq

/-- First field that is present and converts successfully; skip fields
that are absent (`None`) or whose conversion raises (`except: pass`). -/
def firstSuccess : List (Option (Option Nat)) → Option Nat
  | [] => none
  | some (some d) :: _ => some d
  | _ :: rest => firstSuccess rest

/-- The date fields in the exact order `tentar_parse_datetime` tries
them: the three structured `*_parsed` fields, then the three free-text
fields. -/
def camposDe (e : Entry) : List (Option (Option Nat)) :=
  [e.published_parsed, e.updated_parsed, e.created_parsed,
   e.published, e.updated, e.created]

/-- `tentar_parse_datetime(entry)`: try `published_parsed`,
`updated_parsed`, `created_parsed`, then `published`, `updated`,
`created`; the first present field whose conversion succeeds wins;
otherwise `None`. -/
def tentar_parse_datetime (e : Entry) : Option Nat :=
  firstSuccess (camposDe e)

/-- One collected record (the dict appended to `resultados`).  `data`
is the optional parsed timestamp (the empty string in the Python dict
corresponds to `none`, an `isoformat` string to `some t` — `isoformat`
and `fromisoformat` round-trip). `tem_data` is stored separately, as in
the dict. -/
structure Registro where
  fonte : String
  titulo : String
  link : String
  resumo : String
  data : Option Nat
  tem_data : Bool
  metodo : String
deriving DecidableEq

/-- `BeautifulSoup(resumo, "html.parser").get_text(" ", strip=True)` on
markup-free text (a library call outside `src/`): each text node is
stripped and the nodes joined; for the tag-free summaries modelled here
this is `strip`. -/
def bs4_text (s : String) : String := stripStr s

/-- The summary fallback of `coletar_via_rss`:
`entry.get("summary", "") or entry.get("description", "") or ""`
(the empty string is falsy, so an absent or empty summary falls through
to `description`). -/
def resumoDe (e : Entry) : String :=
  let s := e.summary.getD ""
  if s = "" then e.description.getD "" else s

/-- `coletar_via_rss(keywords, dias)`: feeds are given as pure data,
`(fonte, entries)` pairs (the HTTP fetch and per-source `try/except`
are outside the model: a failed source is simply absent from the
list).  For each entry: read title/summary/link with `""` defaults,
parse the date, and keep the entry when the keywords match
`f"{titulo} {resumo}"` and `(data and dentro_da_janela(data, dias)) or
(data is None)` holds; `agora` is the imported-module global `AGORA`. -/
def coletar_via_rss (feeds : List (String × List Entry)) (keywords : List String)
    (dias : Int) (agora : Nat) : List Registro :=
  (feeds.map (fun fu =>
    fu.2.filterMap (fun entry =>
      let titulo := entry.title.getD ""
      let resumo := resumoDe entry
      let link := entry.link.getD ""
      let data := tentar_parse_datetime entry
      let texto_alvo := titulo ++ " " ++ resumo
      if contem_keywords texto_alvo keywords then
        if (data.isSome && dentro_da_janela agora data dias) || data.isNone then
          some { fonte := fu.1, titulo := stripStr titulo, link := link,
                 resumo := bs4_text resumo, data := data,
                 tem_data := data.isSome, metodo := "RSS" }
        else none
      else none))).flatten

/-- An `<a href>` element as `coletar_via_html` reads it: `href` is
`a.get("href")` (absent → `None`), `texto` is the library-extracted
`a.get_text(" ", strip=True)`. -/
structure Anchor where
  href : Option String
  texto : String
deriving DecidableEq

/-- The `scheme://host` part of a URL: everything up to (not including)
the first `/` after the `://` separator.  Modelled from the spec: the
behaviour of `urllib.parse.urljoin(url, href)` for an `href` starting
with `/` (library call outside `src/`); protocol-relative `//…` hrefs
and hosts followed directly by `?`/`#` are outside the model. -/
def schemeHostL : List Char → List Char
  | ':' :: '/' :: '/' :: rest => ':' :: '/' :: '/' :: rest.takeWhile (fun c => c ≠ '/')
  | c :: rest => c :: schemeHostL rest
  | [] => []

/-- `urljoin(url, href)` for a root-relative `href`. -/
def urljoin (base rel : String) : String :=
  String.mk (schemeHostL base.toList) ++ rel

/-- `str.startswith(pre)`, on the underlying character lists. -/
def startsWithL (s pre : String) : Bool := pre.toList.isPrefixOf s.toList

/-- The anchor loop of `coletar_via_html` for one page, carrying the
`vistos` set of `(href, texto.lower())` keys already emitted. -/
def htmlLoop (fonte url : String) (keywords : List String)
    (vistos : List (String × String)) : List Anchor → List Registro
  | [] => []
  | a :: rest =>
    let href0 := a.href.getD ""
    let texto := a.texto
    let alvo := texto ++ " " ++ href0
    if href0 = "" || startsWithL href0 "#" then
      htmlLoop fonte url keywords vistos rest
    else
      let href := if startsWithL href0 "/" then urljoin url href0 else href0
      if contem_keywords alvo keywords then
        let chaveA := (href, lowerStr texto)
        if chaveA ∈ vistos then htmlLoop fonte url keywords vistos rest
        else
          { fonte := fonte,
            titulo := if texto ≠ "" then String.mk (texto.toList.take 140)
                      else "(sem título)",
            link := href, resumo := "", data := none,
            tem_data := false, metodo := "HTML" } ::
          htmlLoop fonte url keywords (chaveA :: vistos) rest
      else htmlLoop fonte url keywords vistos rest

/-- `coletar_via_html(keywords)`: pages are given as pure data,
`(fonte, url, anchors)` triples (the HTTP fetch, `http_get` failures and
the per-page `try/except` are outside the model: a failed page is
absent from the list). -/
def coletar_via_html (pages : List (String × String × List Anchor))
    (keywords : List String) : List Registro :=
  (pages.map (fun p => htmlLoop p.1 p.2.1 keywords [] p.2.2)).flatten

/-- The intra-run dedup key of `deduplicar`:
`(r["titulo"].strip().lower(), r["link"])`. -/
def chave (r : Registro) : String × String :=
  (lowerStr (stripStr r.titulo), r.link)

/-- The loop of `deduplicar`, carrying the `vistos` key set. -/
def dedupLoop (vistos : List (String × String)) : List Registro → List Registro
  | [] => []
  | r :: rs =>
    if chave r ∈ vistos then dedupLoop vistos rs
    else r :: dedupLoop (chave r :: vistos) rs

/-- `deduplicar(registros)`: keep the first record for each
`(titulo.strip().lower(), link)` key, in input order. -/
def deduplicar (registros : List Registro) : List Registro :=
  dedupLoop [] registros

/-- The sort key of `ordenar`:
`(-int(r["tem_data"]), dt if dt else datetime.min.replace(tzinfo=TZ_FORTALEZA), r["fonte"], r["titulo"])`,
compared lexicographically.  `dt` is `datetime.fromisoformat(r["data"])`
when the stored string is non-empty (here `r.data` directly, since
`isoformat`/`fromisoformat` round-trip), else the minimal datetime,
which is timestamp `0` in this model.  Strings compare by code point,
as in Python — modelled as lexicographic order on their character
lists. -/
def chaveOrd (r : Registro) : Int ×ₗ (Nat ×ₗ (List Char ×ₗ List Char)) :=
  toLex ((if r.tem_data then (-1 : Int) else 0),
    toLex (r.data.getD 0, toLex (r.fonte.toList, r.titulo.toList)))

/-- The order in which `ordenar` emits records:
`sorted(..., key=key, reverse=True)` puts `a` before `b` exactly when
`key b ≤ key a` (descending), keeping ties in input order. -/
def ordemRegistro (a b : Registro) : Prop := chaveOrd b ≤ chaveOrd a

instance : DecidableRel ordemRegistro :=
  fun a b => inferInstanceAs (Decidable (chaveOrd b ≤ chaveOrd a))

instance : IsTotal Registro ordemRegistro :=
  ⟨fun a b => (le_total (chaveOrd b) (chaveOrd a)).imp id id⟩

instance : IsTrans Registro ordemRegistro :=
  ⟨fun _ _ _ h₁ h₂ => le_trans h₂ h₁⟩

/-- `ordenar(registros)`: `sorted(registros, key=key, reverse=True)`.
Python's sort is stable and `reverse=True` is the stable descending
sort, which insertion sort with the reflexive descending relation
reproduces exactly. -/
def ordenar (registros : List Registro) : List Registro :=
  List.insertionSort ordemRegistro registros

/-- One data row of the CSV ledger file
(`cabec = ["coleta_em", "fonte", "titulo", "link", "data", "metodo"]`);
the `data` cell is the optional timestamp as in `Registro`. -/
structure LinhaCsv where
  coleta_em : String
  fonte : String
  titulo : String
  link : String
  data : Option Nat
  metodo : String
deriving DecidableEq

/-- The `(fonte, link)` key `salvar_log_csv` reads back from an existing
row. -/
def chaveLinha (l : LinhaCsv) : String × String := (l.fonte, l.link)

/-- A `Registro` written as a CSV row; `agora_str` is
`AGORA.strftime(...)`, the run's collection timestamp. -/
def linhaDe (agora_str : String) (r : Registro) : LinhaCsv :=
  { coleta_em := agora_str, fonte := r.fonte, titulo := r.titulo,
    link := r.link, data := r.data, metodo := r.metodo }

/-- `salvar_log_csv(registros, caminho_csv)`: the CSV file is modelled
as its list of data rows (`ledger`), read successfully (the
`except: pass` on an unreadable file, and the header row, are outside
the model).  `existentes` is the set of `(fonte, link)` keys of the
rows already in the file, collected before writing; every record whose
key is in `existentes` is skipped, the rest are appended in order. -/
def salvar_log_csv (agora_str : String) (ledger : List LinhaCsv)
    (registros : List Registro) : List LinhaCsv :=
  let existentes := ledger.map chaveLinha
  ledger ++ (registros.filter
    (fun r => !(decide ((r.fonte, r.link) ∈ existentes)))).map (linhaDe agora_str)

/-- `buscar_promos_milhas(keywords, dias, usar_html_fallback)`:
RSS plus (optionally) HTML collection, deduplicated, then ordered. -/
def buscar_promos_milhas (feeds : List (String × List Entry))
    (pages : List (String × String × List Anchor)) (keywords : List String)
    (dias : Int) (agora : Nat) (usar_html_fallback : Bool) : List Registro :=
  let rss := coletar_via_rss feeds keywords dias agora
  let html := if usar_html_fallback then coletar_via_html pages keywords else []
  ordenar (deduplicar (rss ++ html))

/-! ## Spec-side definitions (for refinement comparisons)

These definitions follow the specification's words, not the source; they
exist only to be compared against the source-derived definitions
above. -/

/-- Modelled from the spec: the spec's intra-run dedup key
`(normalizedTitle, link)` where `normalizedTitle` is the title
lowercased and whitespace-collapsed (which is exactly
`normalizar_texto`). -/
def spec_chave (r : Registro) : String × String :=
  (normalizar_texto r.titulo, r.link)

/-- The part of a character list after the first `://`. -/
def hostTail : List Char → List Char
  | ':' :: '/' :: '/' :: rest => rest
  | _ :: rest => hostTail rest
  | [] => []

/-- Modelled from the spec: the host component of an absolute URL — the
text between `://` and the next `/`, `:`, `?` or `#`. -/
def spec_host (link : String) : String :=
  String.mk ((hostTail link.toList).takeWhile
    (fun c => !(c == '/' || c == ':' || c == '?' || c == '#')))

/-- Modelled from the spec: host `h` matches excluded domain `d` iff
`h == d` or `h` ends with `"." + d`. -/
def spec_host_matches (h d : String) : Bool :=
  h == d || ('.' :: d.toList).isSuffixOf h.toList

/-- Modelled from the spec: the FilterEngine decision sequence —
(1) reject on excluded domain, (2) reject on a negative pattern match,
(3) reject when no positive pattern matches, (4) accept — over an
abstract pattern matcher. -/
def spec_is_relevant (matcher : String → String → Bool)
    (positivos negativos dominios : List String)
    (titulo resumo link : String) : Bool :=
  if dominios.any (fun d => spec_host_matches (spec_host link) d) then false
  else
    let texto := titulo ++ " " ++ resumo
    if negativos.any (fun p => matcher p texto) then false
    else if !(positivos.any (fun p => matcher p texto)) then false
    else true

/-- The pattern matcher the source actually uses for its (positive-only)
keywords: case-insensitive substring against the whitespace-normalized
text (`k.lower() in normalizar_texto(texto)`). -/
def matcher_codigo (p texto : String) : Bool :=
  isSubstrL (lowerStr p) (normalizar_texto texto)

/-! ## Concrete instances used by counterexamples and witnesses -/

/-- An RSS entry with a keyword title and no date information. -/
def entryC1 : Entry :=
  ⟨some "Bonus de transferencia 100%", some "ganhe bonus", none,
   some "https://blog.com/p1", none, none, none, none, none, none⟩

/-- The one-source corpus for the idempotence counterexample. -/
def feedsC1 : List (String × List Entry) := [("Blog", [entryC1])]

/-- The record the pipeline produces from `entryC1`. -/
def regC1 : Registro :=
  ⟨"Blog", "Bonus de transferencia 100%", "https://blog.com/p1",
   "ganhe bonus", none, false, "RSS"⟩

/-- A dated record. -/
def regC2dated : Registro := ⟨"A", "t", "l1", "", some 100, true, "RSS"⟩

/-- An undated record. -/
def regC2undated : Registro := ⟨"A", "t", "l2", "", none, false, "RSS"⟩

/-- Undated record from source `"A"`. -/
def regC2fonteA : Registro := ⟨"A", "t", "l3", "", none, false, "RSS"⟩

/-- Undated record from source `"B"`. -/
def regC2fonteB : Registro := ⟨"B", "t", "l4", "", none, false, "RSS"⟩

/-- An RSS entry whose title is absent but whose summary matches the
keywords. -/
def entryC5 : Entry :=
  ⟨none, some "ganhe bonus na transferencia", none, some "https://x.com/p",
   none, none, none, none, none, none⟩

/-- The empty-title record `entryC5` produces. -/
def regC5rss : Registro :=
  ⟨"F", "", "https://x.com/p", "ganhe bonus na transferencia", none, false, "RSS"⟩

/-- A matching anchor with a root-relative href. -/
def pageC5 : String × String × List Anchor :=
  ("Smiles", "https://smiles.com.br", [⟨some "/promo-bonus", "Bonus Smiles"⟩])

/-- The record the HTML collector produces from `pageC5`. -/
def regC5html : Registro :=
  ⟨"Smiles", "Bonus Smiles", "https://smiles.com.br/promo-bonus", "",
   none, false, "HTML"⟩

/-- Title with an inner double space. -/
def regC6a : Registro := ⟨"A", "bonus  promo", "https://a.com/1", "", none, false, "RSS"⟩

/-- Same title single-spaced, same link. -/
def regC6b : Registro := ⟨"B", "bonus promo", "https://a.com/1", "", none, false, "RSS"⟩

/-- Same title up to case, same link as `regC6b`. -/
def regC6c : Registro := ⟨"C", "Bonus Promo", "https://a.com/1", "", none, false, "RSS"⟩

/-- Entry whose `published_parsed` field is present but fails to
convert, and whose free-text `published` field parses to `42`. -/
def entryC8 : Entry :=
  ⟨none, none, none, none, some none, none, none, some (some 42), none, none⟩

/-- An existing ledger row. -/
def linhaC9 : LinhaCsv := ⟨"t0", "F", "Bonus", "https://a.com/1", none, "RSS"⟩

/-- A record whose `(fonte, link)` key equals `linhaC9`'s. -/
def regC9 : Registro := ⟨"F", "Bonus2", "https://a.com/1", "", none, false, "RSS"⟩

/-- A record with a fresh key. -/
def regC9b : Registro := ⟨"G", "Other", "https://b.com/2", "", some 7, true, "RSS"⟩

/-- Entry with a keyword title, a present-but-unconvertible
`published_parsed` and no other date field. -/
def entryC10 : Entry :=
  ⟨some "Promo bonus", none, none, some "https://f.com/1",
   some none, none, none, none, none, none⟩

/-- The record the RSS collector produces from `entryC10`. -/
def regC10rss : Registro :=
  ⟨"F", "Promo bonus", "https://f.com/1", "", none, false, "RSS"⟩

/-- A page with one matching absolute-href anchor. -/
def pageC10 : String × String × List Anchor :=
  ("H", "https://h.com", [⟨some "https://h.com/promo", "Smiles bonus"⟩])

/-- The record the HTML collector produces from `pageC10`. -/
def regC10html : Registro :=
  ⟨"H", "Smiles bonus", "https://h.com/promo", "", none, false, "HTML"⟩

/-! ## Helper lemmas -/

theorem iteNotSelf (b : Bool) : (if (!b) = true then false else true) = b := by
  cases b <;> rfl

theorem stringMk_ne_empty (l : List Char) (h : l ≠ []) : String.mk l ≠ "" := by
  intro heq
  exact h (by simpa using congrArg String.data heq)

theorem stringMk_eq_empty_iff (l : List Char) : String.mk l = "" ↔ l = [] := by
  constructor
  · intro h; simpa using congrArg String.data h
  · intro h; subst h; rfl

theorem append_ne_empty_of_right (s t : String) (h : t ≠ "") : s ++ t ≠ "" := by
  intro heq
  have hd : s.data ++ t.data = [] := by simpa using congrArg String.data heq
  have ht : t.data = [] := (List.append_eq_nil.mp hd).2
  apply h
  cases t with
  | mk d =>
    subst ht
    rfl

theorem take_ne_nil (l : List Char) (h : l ≠ []) : l.take 140 ≠ [] := by
  cases l with
  | nil => exact absurd rfl h
  | cons c cs => simp [List.take]

theorem dedupLoop_mem_chave : ∀ (l : List Registro) (vistos : List (String × String))
    (r : Registro), r ∈ dedupLoop vistos l → chave r ∉ vistos := by
  intro l
  induction l with
  | nil => intro vistos r h; simp [dedupLoop] at h
  | cons x xs ih =>
    intro vistos r h
    rw [dedupLoop] at h
    by_cases hx : chave x ∈ vistos
    · rw [if_pos hx] at h
      exact ih vistos r h
    · rw [if_neg hx] at h
      rcases List.mem_cons.mp h with rfl | h'
      · exact hx
      · intro hv
        exact ih _ r h' (List.mem_cons_of_mem _ hv)

theorem dedupLoop_nodup : ∀ (l : List Registro) (vistos : List (String × String)),
    ((dedupLoop vistos l).map chave).Nodup := by
  intro l
  induction l with
  | nil => intro vistos; simp [dedupLoop]
  | cons x xs ih =>
    intro vistos
    rw [dedupLoop]
    by_cases hx : chave x ∈ vistos
    · rw [if_pos hx]; exact ih vistos
    · rw [if_neg hx]
      simp only [List.map_cons, List.nodup_cons]
      refine ⟨?_, ih _⟩
      intro hmem
      rcases List.mem_map.mp hmem with ⟨s, hs, hcs⟩
      exact dedupLoop_mem_chave xs _ s hs (by rw [hcs]; exact List.mem_cons_self _ _)

theorem dedupLoop_cover : ∀ (l : List Registro) (vistos : List (String × String))
    (r : Registro), r ∈ l → chave r ∉ vistos →
    ∃ s, s ∈ dedupLoop vistos l ∧ chave s = chave r := by
  intro l
  induction l with
  | nil => intro vistos r h; simp at h
  | cons x xs ih =>
    intro vistos r hr hnv
    rw [dedupLoop]
    by_cases hx : chave x ∈ vistos
    · rw [if_pos hx]
      rcases List.mem_cons.mp hr with rfl | h'
      · exact absurd hx hnv
      · exact ih vistos r h' hnv
    · rw [if_neg hx]
      rcases List.mem_cons.mp hr with rfl | h'
      · exact ⟨_, List.mem_cons_self _ _, rfl⟩
      · by_cases hcx : chave r = chave x
        · exact ⟨_, List.mem_cons_self _ _, hcx.symm⟩
        · have hnv' : chave r ∉ chave x :: vistos := by
            intro hv
            rcases List.mem_cons.mp hv with h1 | h2
            · exact hcx h1
            · exact hnv h2
          rcases ih (chave x :: vistos) r h' hnv' with ⟨s, hs, hcs⟩
          exact ⟨s, List.mem_cons_of_mem _ hs, hcs⟩

theorem dedupLoop_first : ∀ (l : List Registro) (vistos : List (String × String))
    (r : Registro), r ∈ dedupLoop vistos l →
    l.find? (fun s => decide (chave s = chave r)) = some r := by
  intro l
  induction l with
  | nil => intro vistos r h; simp [dedupLoop] at h
  | cons x xs ih =>
    intro vistos r h
    rw [dedupLoop] at h
    by_cases hx : chave x ∈ vistos
    · rw [if_pos hx] at h
      have hnr : chave r ∉ vistos := dedupLoop_mem_chave xs vistos r h
      have hne : ¬ chave x = chave r := fun he => hnr (he ▸ hx)
      rw [List.find?_cons, decide_eq_false hne]
      exact ih vistos r h
    · rw [if_neg hx] at h
      rcases List.mem_cons.mp h with rfl | h'
      · rw [List.find?_cons]
        simp
      · have hnr : chave r ∉ chave x :: vistos := dedupLoop_mem_chave xs _ r h'
        have hne : ¬ chave x = chave r := by
          intro he
          exact hnr (by rw [← he]; exact List.mem_cons_self _ _)
        rw [List.find?_cons, decide_eq_false hne]
        exact ih _ r h'

theorem toList_eq_nil_iff (s : String) : s.toList = [] ↔ s = "" := by
  cases s with
  | mk d =>
    constructor
    · intro h
      have : d = [] := by simpa [String.toList] using h
      subst this
      rfl
    · intro h
      have : d = [] := (stringMk_eq_empty_iff d).mp h
      simp [String.toList, this]

theorem htmlLoop_mem_shape (fonte url : String) (kws : List String) :
    ∀ (l : List Anchor) (vistos : List (String × String)) (r : Registro),
    r ∈ htmlLoop fonte url kws vistos l →
    r.titulo ≠ "" ∧ r.link ≠ "" ∧ r.data = none ∧ r.tem_data = false := by
  intro l
  induction l with
  | nil => intro vistos r h; simp [htmlLoop] at h
  | cons a rest ih =>
    intro vistos r h
    rw [htmlLoop] at h
    by_cases h1 : a.href.getD "" = "" || startsWithL (a.href.getD "") "#"
    · rw [if_pos h1] at h
      exact ih vistos r h
    · rw [if_neg h1] at h
      by_cases h2 : contem_keywords (a.texto ++ " " ++ a.href.getD "") kws
      · rw [if_pos h2] at h
        by_cases h3 : ((if startsWithL (a.href.getD "") "/"
              then urljoin url (a.href.getD "") else a.href.getD ""), lowerStr a.texto) ∈ vistos
        · rw [if_pos h3] at h
          exact ih vistos r h
        · rw [if_neg h3] at h
          rcases List.mem_cons.mp h with rfl | h'
          · have hhref : a.href.getD "" ≠ "" := by
              intro he
              exact h1 (by rw [he]; simp)
            refine ⟨?_, ?_, rfl, rfl⟩
            · by_cases ht : a.texto = ""
              · rw [if_neg (not_not_intro ht)]
                exact (by decide : "(sem título)" ≠ "")
              · rw [if_pos ht]
                refine stringMk_ne_empty _ (take_ne_nil _ ?_)
                intro hl
                exact ht ((toList_eq_nil_iff a.texto).mp hl)
            · by_cases hs : startsWithL (a.href.getD "") "/"
              · rw [if_pos hs]
                exact append_ne_empty_of_right _ _ hhref
              · rw [if_neg hs]
                exact hhref
          · exact ih _ r h'
      · rw [if_neg h2] at h
        exact ih vistos r h

theorem firstSuccess_eq_none_iff : ∀ (L : List (Option (Option Nat))),
    firstSuccess L = none ↔ ∀ x ∈ L, ∀ d, x ≠ some (some d) := by
  intro L
  induction L with
  | nil => simp [firstSuccess]
  | cons x rest ih =>
    cases x with
    | none =>
      rw [show firstSuccess (none :: rest) = firstSuccess rest from rfl, ih]
      constructor
      · intro h y hy d
        rcases List.mem_cons.mp hy with rfl | hy'
        · simp
        · exact h y hy' d
      · intro h y hy d
        exact h y (List.mem_cons_of_mem _ hy) d
    | some y =>
      cases y with
      | none =>
        rw [show firstSuccess (some none :: rest) = firstSuccess rest from rfl, ih]
        constructor
        · intro h z hz d
          rcases List.mem_cons.mp hz with rfl | hz'
          · simp
          · exact h z hz' d
        · intro h z hz d
          exact h z (List.mem_cons_of_mem _ hz) d
      | some d =>
        refine iff_of_false (by simp [firstSuccess]) ?_
        intro h
        exact h (some (some d)) (List.mem_cons_self _ _) d rfl

theorem firstSuccess_eq_some_iff : ∀ (L : List (Option (Option Nat))) (d : Nat),
    firstSuccess L = some d ↔
    ∃ pre post, L = pre ++ some (some d) :: post ∧
      ∀ x ∈ pre, ∀ d2, x ≠ some (some d2) := by
  intro L
  induction L with
  | nil =>
    intro d
    refine iff_of_false (by simp [firstSuccess]) ?_
    rintro ⟨pre, post, h, -⟩
    have : some (some d) ∈ ([] : List (Option (Option Nat))) := by
      rw [h]
      exact List.mem_append_right pre (List.mem_cons_self _ _)
    simp at this
  | cons x rest ih =>
    intro d
    by_cases hx : ∀ d2, x ≠ some (some d2)
    · have hskip : firstSuccess (x :: rest) = firstSuccess rest := by
        cases x with
        | none => rfl
        | some y =>
          cases y with
          | none => rfl
          | some d2 => exact absurd rfl (hx d2)
      rw [hskip, ih]
      constructor
      · rintro ⟨pre, post, heq, hpre⟩
        refine ⟨x :: pre, post, by rw [heq]; rfl, ?_⟩
        intro z hz d2
        rcases List.mem_cons.mp hz with rfl | hz'
        · exact hx d2
        · exact hpre z hz' d2
      · rintro ⟨pre, post, heq, hpre⟩
        cases pre with
        | nil =>
          simp only [List.nil_append] at heq
          obtain ⟨h1, -⟩ := List.cons.inj heq
          exact absurd h1 (hx d)
        | cons p ps =>
          obtain ⟨h1, h2⟩ := List.cons.inj (by simpa using heq)
          exact ⟨ps, post, h2, fun z hz d2 => hpre z (List.mem_cons_of_mem _ hz) d2⟩
    · push_neg at hx
      obtain ⟨d2, hd2⟩ := hx
      subst hd2
      rw [show firstSuccess (some (some d2) :: rest) = some d2 from rfl]
      constructor
      · intro h
        have : d2 = d := by injection h
        subst this
        exact ⟨[], rest, rfl, by simp⟩
      · rintro ⟨pre, post, heq, hpre⟩
        cases pre with
        | nil =>
          have h12 : d2 = d ∧ rest = post := by simpa using heq
          rw [h12.1]
        | cons p ps =>
          have h12 : some (some d2) = p ∧ rest = ps ++ some (some d) :: post := by
            simpa using heq
          exact absurd h12.1.symm (hpre p (List.mem_cons_self _ _) d2)

theorem salvar_log_csv_key_mem (a : String) (ledger : List LinhaCsv)
    (rs : List Registro) (r : Registro) (hr : r ∈ rs) :
    (r.fonte, r.link) ∈ (salvar_log_csv a ledger rs).map chaveLinha := by
  unfold salvar_log_csv
  simp only [List.map_append]
  by_cases hc : (r.fonte, r.link) ∈ ledger.map chaveLinha
  · exact List.mem_append_left _ hc
  · apply List.mem_append_right
    refine List.mem_map.mpr ⟨linhaDe a r, ?_, rfl⟩
    refine List.mem_map.mpr ⟨r, ?_, rfl⟩
    refine List.mem_filter.mpr ⟨hr, ?_⟩
    simp [hc]

theorem salvar_log_csv_idem (a a2 : String) (ledger : List LinhaCsv)
    (rs : List Registro) :
    salvar_log_csv a2 (salvar_log_csv a ledger rs) rs = salvar_log_csv a ledger rs := by
  have hfilter : rs.filter
      (fun r => !(decide ((r.fonte, r.link) ∈ (salvar_log_csv a ledger rs).map chaveLinha)))
      = [] := by
    rw [List.filter_eq_nil_iff]
    intro r hr
    simp [salvar_log_csv_key_mem a ledger rs r hr]
  conv_lhs => rw [salvar_log_csv]
  rw [hfilter]
  simp

/-! ## Claim theorems -/

/-- C1 (counterexample): the pipeline output is computed without any
ledger input, so a second run over the unchanged corpus `feedsC1`
delivers the same non-empty item list even though the item's
`(fonte, link)` key was committed to the ledger after run 1 — not the
zero items the claim requires. -/
theorem c1_second_run_items_survive :
    buscar_promos_milhas feedsC1 [] KEYWORDS 3 1000 true = [regC1] ∧
    (regC1.fonte, regC1.link) ∈
      (salvar_log_csv "2026-01-01" []
        (buscar_promos_milhas feedsC1 [] KEYWORDS 3 1000 true)).map chaveLinha ∧
    buscar_promos_milhas feedsC1 [] KEYWORDS 3 1000 true ≠ [] := by
  refine ⟨by decide, by decide, by decide⟩

/-- C1 (amended): cross-run deduplication exists only at the CSV-ledger
level, not at delivery: a second run over an unchanged corpus delivers
the identical item list again (the ledger never filters it), and
committing that second run's items appends nothing to the ledger. -/
theorem c1_second_run_commit_noop (a a2 : String)
    (feeds : List (String × List Entry))
    (pages : List (String × String × List Anchor)) (kws : List String)
    (dias : Int) (agora : Nat) (flag : Bool) (ledger : List LinhaCsv) :
    salvar_log_csv a2
      (salvar_log_csv a ledger (buscar_promos_milhas feeds pages kws dias agora flag))
      (buscar_promos_milhas feeds pages kws dias agora flag)
    = salvar_log_csv a ledger (buscar_promos_milhas feeds pages kws dias agora flag) :=
  salvar_log_csv_idem a a2 ledger _

/-- C2 (counterexample): `ordenar` sorts the tuple
`(-int(tem_data), date, fonte, titulo)` with `reverse=True`, so an
undated record comes BEFORE a dated one (the claim requires dated
first), and among equal-date records source `"B"` comes before `"A"`
(the claim requires source ascending). -/
theorem c2_claimed_order_fails :
    ordenar [regC2dated, regC2undated] = [regC2undated, regC2dated] ∧
    regC2dated.tem_data = true ∧ regC2undated.tem_data = false ∧
    ordenar [regC2fonteA, regC2fonteB] = [regC2fonteB, regC2fonteA] ∧
    regC2fonteA.fonte.toList < regC2fonteB.fonte.toList := by
  refine ⟨by decide, rfl, rfl, by decide, by decide⟩

/-- C2 (amended): `ordenar` returns a permutation of its input sorted
descending by the key `(-int(tem_data), date-or-min, fonte, titulo)`:
undated items first, then dated items by `publishedAt` descending, ties
by `fonte` descending then `titulo` descending. -/
theorem c2_rank_sorted_descending_key (l : List Registro) :
    (ordenar l).Perm l ∧ List.Sorted ordemRegistro (ordenar l) :=
  ⟨List.perm_insertionSort _ l, List.sorted_insertionSort _ l⟩

/-- C3: for a present publish date the window test accepts iff
`now - publishedAt <= horizonDays` days (microsecond units), so the
boundary `exactly horizonDays*24h old` is accepted and one microsecond
older is rejected. -/
theorem c3_recency_boundary_inclusive (agora d d2 : Nat) (dias : Int) :
    (dentro_da_janela agora (some d) dias = true ↔
      (agora : Int) - (d : Int) ≤ dias * microsPorDia) ∧
    ((d : Int) = (agora : Int) - dias * microsPorDia →
      dentro_da_janela agora (some d) dias = true) ∧
    ((d2 : Int) = (agora : Int) - dias * microsPorDia - 1 →
      dentro_da_janela agora (some d2) dias = false) := by
  refine ⟨?_, ?_, ?_⟩
  · simp only [dentro_da_janela, decide_eq_true_eq]
    omega
  · intro h
    simp only [dentro_da_janela, decide_eq_true_eq]
    omega
  · intro h
    simp only [dentro_da_janela]
    rw [decide_eq_false_iff_not]
    omega

/-- C3 (witness): with `horizonDays = 3`, a date exactly three days
before `now` is accepted and one microsecond older is rejected. -/
theorem c3_recency_boundary_witness :
    dentro_da_janela 259200000001 (some 1) 3 = true ∧
    dentro_da_janela 259200000001 (some 0) 3 = false :=
  ⟨(c3_recency_boundary_inclusive 259200000001 1 0 3).2.1 (by decide),
   (c3_recency_boundary_inclusive 259200000001 1 0 3).2.2 (by decide)⟩

/-- C4 (counterexample): the recency check reads the module global
`AGORA` (set from the wall clock at import), here the explicit first
argument: two calls with identical explicit arguments
(`data_pub = some 0`, `dias = 0`) made under different values of the
global return different booleans, so cross-process determinism
fails. -/
theorem c4_identical_args_differ :
    dentro_da_janela 0 (some 0) 0 = true ∧
    dentro_da_janela 1 (some 0) 0 = false := by
  decide

/-- C4 (amended): the result depends only on the module global `AGORA`
together with the explicit arguments; with the global fixed (as it is
for the lifetime of one process) identical arguments give identical
results. -/
theorem c4_deterministic_given_agora (a1 a2 : Nat) (p1 p2 : Option Nat)
    (n1 n2 : Int) (ha : a1 = a2) (hp : p1 = p2) (hn : n1 = n2) :
    dentro_da_janela a1 p1 n1 = dentro_da_janela a2 p2 n2 := by
  rw [ha, hp, hn]

/-- C4 (witness): determinism instance at concrete arguments. -/
theorem c4_deterministic_witness :
    dentro_da_janela 5 (some 3) 1 = dentro_da_janela 5 (some 3) 1 :=
  c4_deterministic_given_agora 5 5 (some 3) (some 3) 1 1 rfl rfl rfl

/-- C5 (counterexample): the RSS collector performs no emptiness check:
an entry with no title whose summary matches the keywords yields a
record with an empty `titulo` that survives the keyword filter and the
whole pipeline. -/
theorem c5_rss_empty_title_survives :
    coletar_via_rss [("F", [entryC5])] KEYWORDS 3 1000 = [regC5rss] ∧
    regC5rss.titulo = "" ∧
    buscar_promos_milhas [("F", [entryC5])] [] KEYWORDS 3 1000 true = [regC5rss] := by
  refine ⟨by decide, rfl, by decide⟩

/-- C5 (amended): only the HTML collector guarantees the invariant —
every record it emits has a non-empty title (placeholder
`"(sem título)"` when the anchor text is empty) and a non-empty link
(empty hrefs are skipped). -/
theorem c5_html_items_nonempty (pages : List (String × String × List Anchor))
    (kws : List String) (r : Registro) (hr : r ∈ coletar_via_html pages kws) :
    r.titulo ≠ "" ∧ r.link ≠ "" := by
  unfold coletar_via_html at hr
  rw [List.mem_flatten] at hr
  obtain ⟨s, hs, hrs⟩ := hr
  obtain ⟨p, hp, rfl⟩ := List.mem_map.mp hs
  have h := htmlLoop_mem_shape p.1 p.2.1 kws p.2.2 [] r hrs
  exact ⟨h.1, h.2.1⟩

/-- C5 (witness): the record collected from `pageC5` has non-empty
title and link. -/
theorem c5_html_items_nonempty_witness :
    regC5html.titulo ≠ "" ∧ regC5html.link ≠ "" :=
  c5_html_items_nonempty [pageC5] KEYWORDS regC5html (by decide)

/-- C6 (counterexample): the dedup key uses `titulo.strip().lower()`,
which does NOT collapse inner whitespace: two records whose titles
differ only by a doubled inner space share the spec's normalized key
but both survive `deduplicar`. -/
theorem c6_whitespace_not_collapsed :
    spec_chave regC6a = spec_chave regC6b ∧
    deduplicar [regC6a, regC6b] = [regC6a, regC6b] ∧
    (deduplicar [regC6a, regC6b]).length = 2 := by
  refine ⟨by decide, by decide, by decide⟩

/-- C6 (amended): within one batch `deduplicar` keeps exactly one item
per key `(titulo.strip().lower(), link)` (inner whitespace preserved):
output keys are pairwise distinct, every input key is represented, and
each survivor is the FIRST input record with its key. -/
theorem c6_dedup_strip_lower_key (l : List Registro) :
    ((deduplicar l).map chave).Nodup ∧
    (∀ r, r ∈ l → ∃ s, s ∈ deduplicar l ∧ chave s = chave r) ∧
    (∀ r, r ∈ deduplicar l →
      l.find? (fun s => decide (chave s = chave r)) = some r) :=
  ⟨dedupLoop_nodup l [],
   fun r hr => dedupLoop_cover l [] r hr (by simp),
   fun r hr => dedupLoop_first l [] r hr⟩

/-- C6 (witness): on a batch with two records equal up to
strip+lowercase of the title, the survivor set has distinct keys,
covers the duplicate's key, and the survivor is the first
occurrence. -/
theorem c6_dedup_strip_lower_key_witness :
    ((deduplicar [regC6b, regC6c]).map chave).Nodup ∧
    (∃ s, s ∈ deduplicar [regC6b, regC6c] ∧ chave s = chave regC6c) ∧
    ([regC6b, regC6c].find? (fun s => decide (chave s = chave regC6b)) = some regC6b) :=
  ⟨(c6_dedup_strip_lower_key [regC6b, regC6c]).1,
   (c6_dedup_strip_lower_key [regC6b, regC6c]).2.1 regC6c (by decide),
   (c6_dedup_strip_lower_key [regC6b, regC6c]).2.2 regC6b (by decide)⟩

/-- C7 (counterexample): the code's relevance check consults neither
the link's domain nor negative patterns: an item on an excluded domain
with a positive keyword is accepted by the code
(`contem_keywords = true`) although the spec's decision sequence
rejects it. -/
theorem c7_excluded_domain_ignored :
    contem_keywords ("bonus promo" ++ " " ++ "") ["bonus"] = true ∧
    spec_is_relevant matcher_codigo ["bonus"] [] ["blog.com"]
      "bonus promo" "" "https://blog.com/x" = false := by
  refine ⟨by decide, by decide⟩

/-- C7 (amended): the code implements only steps (3)/(4) of the spec's
sequence: its decision coincides with the spec procedure exactly when
the excluded-domain and negative-pattern sets are empty, for every
link; positive matching is case-insensitive (uppercase text still
matches a lowercase keyword). -/
theorem c7_filter_positive_only (kws : List String) (titulo resumo link : String) :
    spec_is_relevant matcher_codigo kws [] [] titulo resumo link =
      contem_keywords (titulo ++ " " ++ resumo) kws ∧
    contem_keywords "GANHE um BONUS" ["bonus"] = true := by
  constructor
  · exact iteNotSelf (kws.any fun p => matcher_codigo p (titulo ++ " " ++ resumo))
  · decide

/-- C8: date parsing tries the six candidate fields in the fixed order
of `camposDe` (the three structured `*_parsed` fields before the three
free-text fields): the result is `none` iff no field parses, and is
`some d` iff the first parsing field yields `d` (all earlier fields
absent or failing); the function is total, so no error escapes. -/
theorem c8_date_parse_first_success (e : Entry) :
    (tentar_parse_datetime e = none ↔
      ∀ x ∈ camposDe e, ∀ d, x ≠ some (some d)) ∧
    (∀ d, tentar_parse_datetime e = some d ↔
      ∃ pre post, camposDe e = pre ++ some (some d) :: post ∧
        ∀ x ∈ pre, ∀ d2, x ≠ some (some d2)) :=
  ⟨firstSuccess_eq_none_iff _, fun d => firstSuccess_eq_some_iff _ d⟩

/-- C8 (witness): on `entryC8` (structured field present but
unconvertible, free-text `published` parses to 42) the parser returns
42. -/
theorem c8_date_parse_witness : tentar_parse_datetime entryC8 = some 42 :=
  ((c8_date_parse_first_success entryC8).2 42).mpr
    ⟨[some none, none, none], [none, none], by decide,
     by intro x hx d2; fin_cases hx <;> simp⟩

/-- C9: appending to the CSV ledger is idempotent: an empty batch
changes nothing, re-appending a just-appended batch changes nothing,
and appending a single record whose `(fonte, link)` key is already
present changes nothing. -/
theorem c9_ledger_append_idempotent (a a2 : String) (ledger : List LinhaCsv)
    (rs : List Registro) (r : Registro) :
    salvar_log_csv a ledger [] = ledger ∧
    salvar_log_csv a2 (salvar_log_csv a ledger rs) rs = salvar_log_csv a ledger rs ∧
    ((r.fonte, r.link) ∈ ledger.map chaveLinha →
      salvar_log_csv a ledger [r] = ledger) := by
  refine ⟨by simp [salvar_log_csv], salvar_log_csv_idem a a2 ledger rs, ?_⟩
  intro h
  obtain ⟨x, hx, he⟩ := List.mem_map.mp h
  simp only [salvar_log_csv]
  rw [show (List.filter
      (fun r2 => !(decide ((r2.fonte, r2.link) ∈ ledger.map chaveLinha))) [r]) = [] from ?_]
  · simp
  · rw [List.filter_eq_nil_iff]
    intro r2 hr2
    rw [List.mem_singleton] at hr2
    subst hr2
    simp [h]

/-- C9 (witness): idempotence instances on a concrete one-row ledger:
empty batch, duplicated batch, and an already-present key. -/
theorem c9_ledger_append_witness :
    salvar_log_csv "t1" [linhaC9] [] = [linhaC9] ∧
    salvar_log_csv "t2" (salvar_log_csv "t1" [linhaC9] [regC9b]) [regC9b] =
      salvar_log_csv "t1" [linhaC9] [regC9b] ∧
    salvar_log_csv "t1" [linhaC9] [regC9] = [linhaC9] :=
  ⟨(c9_ledger_append_idempotent "t1" "t2" [linhaC9] [regC9b] regC9).1,
   (c9_ledger_append_idempotent "t1" "t2" [linhaC9] [regC9b] regC9).2.1,
   (c9_ledger_append_idempotent "t1" "t2" [linhaC9] [regC9b] regC9).2.2 (by decide)⟩

/-- C10: undated items bypass the recency window: the standalone window
predicate returns `false` on a missing date, yet a keyword-matching RSS
entry whose date fails to parse is collected (with `data = none`), and
every HTML-scraped record carries no date at all. -/
theorem c10_undated_accepted (agora : Nat) (dias : Int) (fonte : String)
    (e : Entry) (kws : List String)
    (pages : List (String × String × List Anchor)) (r : Registro) :
    dentro_da_janela agora none dias = false ∧
    (contem_keywords ((e.title.getD "") ++ " " ++ resumoDe e) kws = true →
      tentar_parse_datetime e = none →
      coletar_via_rss [(fonte, [e])] kws dias agora =
        [{ fonte := fonte, titulo := stripStr (e.title.getD ""),
           link := e.link.getD "", resumo := bs4_text (resumoDe e),
           data := none, tem_data := false, metodo := "RSS" }]) ∧
    (r ∈ coletar_via_html pages kws → r.data = none ∧ r.tem_data = false) := by
  refine ⟨rfl, ?_, ?_⟩
  · intro h1 h2
    simp [coletar_via_rss, h1, h2]
  · intro hr
    unfold coletar_via_html at hr
    rw [List.mem_flatten] at hr
    obtain ⟨s, hs, hrs⟩ := hr
    obtain ⟨p, hp, rfl⟩ := List.mem_map.mp hs
    have h := htmlLoop_mem_shape p.1 p.2.1 kws p.2.2 [] r hrs
    exact ⟨h.2.2.1, h.2.2.2⟩

/-- C10 (witness): the window predicate rejects a missing date, yet the
undated keyword entry `entryC10` is collected, and the HTML record
`regC10html` carries no date. -/
theorem c10_undated_accepted_witness :
    dentro_da_janela 1000 none 3 = false ∧
    coletar_via_rss [("F", [entryC10])] KEYWORDS 3 1000 = [regC10rss] ∧
    (regC10html.data = none ∧ regC10html.tem_data = false) :=
  ⟨(c10_undated_accepted 1000 3 "F" entryC10 KEYWORDS [pageC10] regC10html).1,
   ((c10_undated_accepted 1000 3 "F" entryC10 KEYWORDS [pageC10] regC10html).2.1
      (by decide) (by decide)).trans (by decide),
   (c10_undated_accepted 1000 3 "F" entryC10 KEYWORDS [pageC10] regC10html).2.2
      (by decide)⟩
